import Mathlib

/-!
# Verification of the Zoom attendance-webhook services

A shallow embedding of the meeting-to-course reconciliation and attendance
evaluation logic of the repository.  The repository contains several
near-duplicate service variants; the embedding models each variant the claims
touch:

* `src/index.js`, first service (lines 1-276): socket.io variant.  Its
  evaluator is `evaluate`, its scheduled-occurrence computation
  `getScheduledDateTime`, its ended-event handler `processEndedIndexJs`.
* `src/index.js`, second service (lines 277-626) and `src/unnamed/part_003`
  (structurally identical webhook pipelines): evaluator `evaluatePart3`,
  occurrence computation `getScheduledDateTimePart3`, handler
  `processEndedPart3`, webhook gate `handleWebhookIndexJs`.
* `src/unnamed/part_000`: raw CSV logger, gate and handler
  `handleWebhookPart0`.
* `src/unnamed/part_002`: CSV row store with end-time backfill,
  `updateMeetingDetailsOnEnd`, gate and handler `handleWebhookPart2`.

Time is modelled as integer seconds of Europe/London local time, measured
from a reference Sunday 00:00 (a fixed-offset embedding of the configured
timezone; moment's comparisons and differences act on instants, and
`startOf('week')` floors to the enclosing local week, which starts on Sunday
in the default `en` locale).  The course's `scheduled_time` string `"HH:mm"`
is modelled by its parsed hour and minute fields.  JavaScript numbers holding
money are modelled as rationals, and `moment.diff`'s truncation toward zero
(`absFloor`) is `tdivZ`.
-/

namespace Zoom

/-- Truncating division toward zero, the rounding `moment().diff(other, unit)`
applies to a unit difference (moment's `absFloor`).  The divisor is always
positive here. -/
def tdivZ (a b : Int) : Int := if 0 ≤ a then a / b else -((-a) / b)

/-- Seconds in one day. -/
def secsPerDay : Int := 86400

/-- Seconds in one week. -/
def secsPerWeek : Int := 604800

/-- The seven weekday values of the `week_day` registry field. -/
inductive WeekDay where
  | sunday | monday | tuesday | wednesday | thursday | friday | saturday
deriving DecidableEq, Repr

/-- The `weekDayNumbers` table of `getScheduledDateTime`
(0 = Sunday, ..., 6 = Saturday). -/
def weekDayNumber : WeekDay → Int
  | .sunday => 0
  | .monday => 1
  | .tuesday => 2
  | .wednesday => 3
  | .thursday => 4
  | .friday => 5
  | .saturday => 6

/-- `moment(x).startOf('week')`: floor the instant to the enclosing local
week (weeks start Sunday 00:00; the reference epoch is such a week start). -/
def weekStartOf (t : Int) : Int := secsPerWeek * (t / secsPerWeek)

/-- `scheduledDateTime.diff(actualStartMoment, 'days')`: whole-day difference
truncated toward zero. -/
def momentDiffDays (a b : Int) : Int := tdivZ (a - b) secsPerDay

/-- `end.diff(start, 'minutes')` of the index.js / part_003 evaluators:
whole-minute difference truncated toward zero. -/
def momentDiffMinutes (a b : Int) : Int := tdivZ (a - b) 60

/-- The week placement both scheduled-occurrence computations start from:
the configured weekday and time-of-day placed in the local calendar week
containing the start instant (`weekStart.add(weekDayNum, 'days').set({...})`). -/
def nominalOccurrence (start : Int) (wd : WeekDay) (hh mm : Int) : Int :=
  weekStartOf start + weekDayNumber wd * secsPerDay + hh * 3600 + mm * 60

/-- `getScheduledDateTime` of the first index.js service (lines 222-261):
place the weekday/time in the start's week, then add 7 days if the truncated
whole-day difference to the start is below `-6`, then subtract 7 days if it
exceeds `6`. -/
def getScheduledDateTime (start : Int) (wd : WeekDay) (hh mm : Int) : Int :=
  let s0 := nominalOccurrence start wd hh mm
  let s1 := if momentDiffDays s0 start < -6 then s0 + secsPerWeek else s0
  if momentDiffDays s1 start > 6 then s1 - secsPerWeek else s1

/-- `getScheduledDateTime` of the second index.js service and of
`src/unnamed/part_003` (lines 79-113): place the weekday/time in the start's
week, then subtract 7 days if the placement is after `start + 3 days`, else
add 7 days if it is before `start - 3 days` (exact instants, no truncation). -/
def getScheduledDateTimePart3 (start : Int) (wd : WeekDay) (hh mm : Int) : Int :=
  let s0 := nominalOccurrence start wd hh mm
  if s0 > start + 3 * secsPerDay then s0 - secsPerWeek
  else if s0 < start - 3 * secsPerDay then s0 + secsPerWeek
  else s0

/-- The scheduled-occurrence computation as the spec words it (claim C3),
written for comparison with the source definitions: the week placement is
shifted by exactly 7 days toward the start instant when it is more than
6 days away from it in either direction. -/
def getScheduledDateTimeSpec (start : Int) (wd : WeekDay) (hh mm : Int) : Int :=
  let s0 := nominalOccurrence start wd hh mm
  if s0 - start > 6 * secsPerDay then s0 - secsPerWeek
  else if start - s0 > 6 * secsPerDay then s0 + secsPerWeek
  else s0

/-- `calculateTotalTime` of `src/unnamed/part_002` (lines 102-106):
`Math.round((end - start) / 60000)` over millisecond timestamps; our instants
carry whole seconds, hence the `* 1000`.  JavaScript `Math.round` is
`⌊x + 1/2⌋`. -/
def calculateTotalTime (startTime endTime : Int) : Int :=
  ((endTime - startTime) * 1000 + 30000) / 60000

/-- The duration as the spec words it (claim C4), written for comparison:
`end - start` rounded to the nearest whole minute. -/
def roundedMinutes (startTime endTime : Int) : Int :=
  (endTime - startTime + 30) / 60

/-- A course-registry entry (`courses.json`), restricted to the fields the
evaluators read.  `scheduled_time` (`"HH:mm"`) is carried as the hour and
minute values its two `parseInt(split(':'))` calls produce. -/
structure Course where
  course_name : String
  teacher_name : String
  scheduled_week_day : WeekDay
  schedHour : Int
  schedMinute : Int
  rate_pound : ℚ
deriving DecidableEq, Repr

/-- An open session in the `ongoingMeetings` tracker (presentation-only host
fields omitted). -/
structure Session where
  topic : String
  startTime : Int
deriving DecidableEq, Repr

/-- The attendance record the evaluators build, restricted to the derived
fields (the wall-clock presentation strings `date`, `entered_time`,
`finished_time`, `attended_week_day` are omitted). -/
structure AttendanceRecord where
  teacher_name : String
  course_name : String
  meeting_id : String
  scheduled_week_day : WeekDay
  total_time : Int
  rate_pound : ℚ
  rate_formula : ℚ
  calculated_payment : ℚ
  approved_payment : ℚ
  status : String
deriving DecidableEq, Repr

/-- The evaluator of the first index.js service (lines 135-210): duration by
truncating `diff('minutes')`, `rate_formula = rate / 40`,
`approved = Math.min(calculated, rate)`, and `status` set to
`"Not attended"` when the start is `isSameOrAfter` the occurrence minus 3
minutes. -/
def evaluate (c : Course) (meetingId : String) (startTime endTime : Int) : AttendanceRecord :=
  let totalTime := momentDiffMinutes endTime startTime
  let rateFormula : ℚ := c.rate_pound / 40
  let calculatedPayment : ℚ := rateFormula * (totalTime : ℚ)
  let approvedPayment : ℚ := min calculatedPayment c.rate_pound
  let scheduledDateTime := getScheduledDateTime startTime c.scheduled_week_day c.schedHour c.schedMinute
  { teacher_name := c.teacher_name
    course_name := c.course_name
    meeting_id := meetingId
    scheduled_week_day := c.scheduled_week_day
    total_time := totalTime
    rate_pound := c.rate_pound
    rate_formula := rateFormula
    calculated_payment := calculatedPayment
    approved_payment := approvedPayment
    status := if startTime ≥ scheduledDateTime - 180 then "Not attended" else "Attended" }

/-- The evaluator of the second index.js service and of part_003
(lines 168-225 of part_003): same payment formulas, but `status` set to
`"Attended"` when the start `isSameOrBefore` the occurrence minus 3 minutes,
with the part_003 occurrence computation. -/
def evaluatePart3 (c : Course) (meetingId : String) (startTime endTime : Int) : AttendanceRecord :=
  let totalTime := momentDiffMinutes endTime startTime
  let rateFormula : ℚ := c.rate_pound / 40
  let calculatedPayment : ℚ := rateFormula * (totalTime : ℚ)
  let approvedPayment : ℚ := min calculatedPayment c.rate_pound
  let scheduledDateTime := getScheduledDateTimePart3 startTime c.scheduled_week_day c.schedHour c.schedMinute
  { teacher_name := c.teacher_name
    course_name := c.course_name
    meeting_id := meetingId
    scheduled_week_day := c.scheduled_week_day
    total_time := totalTime
    rate_pound := c.rate_pound
    rate_formula := rateFormula
    calculated_payment := calculatedPayment
    approved_payment := approvedPayment
    status := if startTime ≤ scheduledDateTime - 180 then "Attended" else "Not attended" }

/-- `courses.find((c) => c.course_name === courseName)`. -/
def findCourse (courses : List Course) (topic : String) : Option Course :=
  courses.find? (fun c => c.course_name == topic)

/-- Removing a key from the `ongoingMeetings` object (`delete`). -/
def removeMeeting (l : List (String × Session)) (id : String) : List (String × Session) :=
  l.filter (fun p => p.1 != id)

/-- `ongoingMeetings[meetingId] = {...}`: an unconditional upsert. -/
def insertMeeting (l : List (String × Session)) (id : String) (s : Session) :
    List (String × Session) :=
  (id, s) :: removeMeeting l id

/-- The mutable state a webhook service holds: the `ongoingMeetings` object
and the attendance records written so far. -/
structure ServerState where
  ongoingMeetings : List (String × Session)
  records : List AttendanceRecord
deriving DecidableEq, Repr

/-- The `meeting.ended` branch of the first index.js service (lines 131-213):
on a tracker miss, log only; on a hit with no matching course, return early
WITHOUT deleting the session; on a hit with a match, append the record and
delete the session.  The second component is the HTTP status sent. -/
def processEndedIndexJs (courses : List Course) (st : ServerState) (meetingId : String)
    (endTime : Int) : ServerState × Nat :=
  match List.lookup meetingId st.ongoingMeetings with
  | none => (st, 200)
  | some sess =>
    match findCourse courses sess.topic with
    | none => (st, 200)
    | some course =>
        ({ ongoingMeetings := removeMeeting st.ongoingMeetings meetingId
           records := st.records ++ [evaluate course meetingId sess.startTime endTime] }, 200)

/-- The `meeting.ended` branch of the second index.js service and of
part_003 (lines 164-237 of part_003): as `processEndedIndexJs`, but the
session is deleted even when no course matches. -/
def processEndedPart3 (courses : List Course) (st : ServerState) (meetingId : String)
    (endTime : Int) : ServerState × Nat :=
  match List.lookup meetingId st.ongoingMeetings with
  | none => (st, 200)
  | some sess =>
    match findCourse courses sess.topic with
    | none => ({ st with ongoingMeetings := removeMeeting st.ongoingMeetings meetingId }, 200)
    | some course =>
        ({ ongoingMeetings := removeMeeting st.ongoingMeetings meetingId
           records := st.records ++ [evaluatePart3 course meetingId sess.startTime endTime] }, 200)

/-- A sample registry entry used by concrete counterexamples. -/
def sampleCourse : Course :=
  { course_name := "Algebra 1", teacher_name := "T", scheduled_week_day := WeekDay.monday
    schedHour := 9, schedMinute := 0, rate_pound := 40 }

/-- A registry entry whose occurrence falls 3 minutes after the reference
week start, used to exhibit the grace-deadline boundary. -/
def boundaryCourse : Course :=
  { course_name := "Algebra 1", teacher_name := "T", scheduled_week_day := WeekDay.sunday
    schedHour := 0, schedMinute := 3, rate_pound := 40 }

/-- A parsed webhook event for the tracker-based services (timestamps
abstracted to instants; unrecognised event names collapse to `otherEvent`). -/
inductive ZoomEvent where
  | urlValidation (plainToken : String)
  | meetingStarted (meetingId topic : String) (startTime : Int)
  | meetingEnded (meetingId : String) (endTime : Int)
  | otherEvent (eventName : String)
deriving DecidableEq, Repr

/-- Whether the event is the provider's `endpoint.url_validation` probe. -/
def ZoomEvent.isUrlValidation : ZoomEvent → Bool
  | .urlValidation _ => true
  | _ => false

/-- A webhook event for the CSV-store services, which copy the payload's
timestamp strings verbatim into rows. -/
inductive ZoomEventRaw where
  | meetingStarted (meetingId topic hostId startTime : String)
  | meetingEnded (meetingId startTime endTime : String)
  | otherEvent (eventName : String)
deriving DecidableEq, Repr

/-- The expected header signature of index.js / part_003 / part_002:
`"v0=" + HMAC_SHA256(secret, "v0:" + timestamp + ":" + raw_body)`.  The HMAC
primitive itself is an external collaborator, passed as a function from
secret and message to hex digest. -/
def zoomSignature (hmac : String → String → String)
    (secret timestamp rawBody : String) : String :=
  "v0=" ++ hmac secret ("v0:" ++ timestamp ++ ":" ++ rawBody)

/-- The webhook route of the second index.js service (lines 374-507) and of
part_003: answer `endpoint.url_validation` before any verification; then
reject with 401 on a signature mismatch, else dispatch to the started/ended
handlers (unhandled event names are logged and acknowledged). -/
def handleWebhookIndexJs (hmac : String → String → String)
    (secret timestamp sigHeader rawBody : String) (courses : List Course)
    (st : ServerState) (ev : ZoomEvent) : ServerState × Nat :=
  match ev with
  | .urlValidation _ => (st, 200)
  | ev' =>
    if sigHeader ≠ zoomSignature hmac secret timestamp rawBody then (st, 401)
    else
      match ev' with
      | .meetingStarted mid topic s =>
          ({ st with ongoingMeetings := insertMeeting st.ongoingMeetings mid ⟨topic, s⟩ }, 200)
      | .meetingEnded mid e => processEndedPart3 courses st mid e
      | _ => (st, 200)

/-- `fields[i]` on a JavaScript array: `undefined` past the end. -/
def jsGet (l : List String) (i : Nat) : Option String := l.get? i

/-- `fields[i] = v` on a JavaScript array: assigning past the end creates
holes, which `join(',')` later renders as empty strings. -/
def jsSet : List String → Nat → String → List String
  | [], 0, v => [v]
  | [], n + 1, v => "" :: jsSet [] n v
  | _ :: xs, 0, v => v :: xs
  | x :: xs, n + 1, v => x :: jsSet xs n v

/-- JavaScript falsiness of `fields[4]`: `undefined` or the empty string. -/
def jsFalsy : Option String → Bool
  | none => true
  | some s => s == ""

/-- A `courses.json` entry as part_002 reads it (`topic`, `host_name`,
`rate_pound`); absent properties are `none`. -/
structure CourseDetails where
  topic : String
  host_name : Option String
  rate_pound : Option ℚ
deriving DecidableEq, Repr

/-- `getCourseDetailsByTopic` of part_002 (lines 109-117): first course with
`course.topic === fields[1]`; a missing field or missing course gives the
empty object, modelled as `none`. -/
def getCourseDetailsByTopic (courses2 : List CourseDetails) :
    Option String → Option CourseDetails
  | none => none
  | some t => courses2.find? (fun c => c.topic == t)

/-- `calculateTotalTime` of part_002 applied to the row's timestamp strings:
`Math.round((new Date(end) - new Date(start)) / 60000)`.  `Date` parsing is
an external collaborator, passed as a function `dateMs` from timestamp
string to epoch milliseconds. -/
def calculateTotalTimeRaw (dateMs : String → Int) (startTime endTime : String) : Int :=
  (dateMs endTime - dateMs startTime + 30000) / 60000

/-- The five assignments the part_002 backfill performs on a matched row:
end time into field 4, then the computed values into fields 5-8. -/
def backfillFields (ett e5 e6 e7 e8 : String) (fields : List String) : List String :=
  jsSet (jsSet (jsSet (jsSet (jsSet fields 4 ett) 5 e5) 6 e6) 7 e7) 8 e8

/-- The values the part_002 backfill writes into fields 5-8 of a matched
row: total minutes, `courseDetails.host_name || ''`,
`courseDetails.rate_pound || ''`, and the capped payment
`Math.min(rate, rate/40 * total).toFixed(2)`.  The number renderings
(`toFixed(2)` and the number-to-string coercion `join` applies) are external
collaborators `fmt2` and `fmtNum`. -/
def backfillValues (dateMs : String → Int) (fmtNum fmt2 : ℚ → String)
    (courses2 : List CourseDetails) (startTime endTime : String)
    (topicField : Option String) : String × String × String × String :=
  let totalTime := calculateTotalTimeRaw dateMs startTime endTime
  let cd := getCourseDetailsByTopic courses2 topicField
  let ratePound : ℚ := (cd.bind CourseDetails.rate_pound).getD 0
  let payment : ℚ := min ratePound (ratePound / 40 * (totalTime : ℚ))
  (toString totalTime,
   (cd.bind CourseDetails.host_name).getD "",
   (match cd.bind CourseDetails.rate_pound with
    | some r => if r = 0 then "" else fmtNum r
    | none => ""),
   fmt2 payment)

/-- The per-row body of `updateMeetingDetailsOnEnd` of part_002 (lines
120-145): when the row's meeting id (field 0) and start time (field 3) match
the event and its end time (field 4) is still empty, backfill fields 4-8;
otherwise return the row unchanged.  Field 1 (the topic) is untouched by the
assignment to field 4 preceding it in the source, so the course lookup reads
it from the original row. -/
def updateRowOnEnd (dateMs : String → Int) (fmtNum fmt2 : ℚ → String)
    (courses2 : List CourseDetails) (meetingId startTime endTime : String)
    (fields : List String) : List String :=
  if jsGet fields 0 = some meetingId ∧ jsGet fields 3 = some startTime
      ∧ jsFalsy (jsGet fields 4) = true then
    backfillFields endTime
      (backfillValues dateMs fmtNum fmt2 courses2 startTime endTime (jsGet fields 1)).1
      (backfillValues dateMs fmtNum fmt2 courses2 startTime endTime (jsGet fields 1)).2.1
      (backfillValues dateMs fmtNum fmt2 courses2 startTime endTime (jsGet fields 1)).2.2.1
      (backfillValues dateMs fmtNum fmt2 courses2 startTime endTime (jsGet fields 1)).2.2.2
      fields
  else fields

/-- `updateMeetingDetailsOnEnd` of part_002: map the row backfill over every
line of the store. -/
def updateMeetingDetailsOnEnd (dateMs : String → Int) (fmtNum fmt2 : ℚ → String)
    (courses2 : List CourseDetails) (rows : List (List String))
    (meetingId startTime endTime : String) : List (List String) :=
  rows.map (updateRowOnEnd dateMs fmtNum fmt2 courses2 meetingId startTime endTime)

/-- `updateCSV` of part_000 (lines 106-125): set the end time of the first
row whose id matches. -/
def updateCSVPart0 : List (List String) → String → String → List (List String)
  | [], _, _ => []
  | r :: rs, mid, et =>
      if jsGet r 0 = some mid then jsSet r 4 et :: rs
      else r :: updateCSVPart0 rs mid et

/-- The webhook route of part_002 (lines 195-246): reject with 400 when
`validateZoomWebhook` fails (same signature formula as index.js), then
require the payload fields to be present (truthy) before appending a started
row or backfilling an ended row; unhandled events get 400. -/
def handleWebhookPart2 (hmac : String → String → String)
    (secret timestamp sigHeader rawBody : String) (dateMs : String → Int)
    (fmtNum fmt2 : ℚ → String) (courses2 : List CourseDetails)
    (rows : List (List String)) (ev : ZoomEventRaw) : List (List String) × Nat :=
  if zoomSignature hmac secret timestamp rawBody ≠ sigHeader then (rows, 400)
  else
    match ev with
    | .meetingStarted mid topic host s =>
        if mid = "" ∨ topic = "" ∨ host = "" ∨ s = "" then (rows, 400)
        else (rows ++ [[mid, topic, host, s, "", "", "", "", ""]], 200)
    | .meetingEnded mid s e =>
        if mid = "" ∨ s = "" ∨ e = "" then (rows, 400)
        else (updateMeetingDetailsOnEnd dateMs fmtNum fmt2 courses2 rows mid s e, 200)
    | .otherEvent _ => (rows, 400)

/-- The webhook route of part_000 (lines 34-63): reject with 401 when the
signature header is missing or differs from the hex digest of
`HMAC_SHA256(secret, timestamp + raw_body)` (no `"v0:"` framing, no `"v0="`
prefix), else log the started row or backfill the end time. -/
def handleWebhookPart0 (hmac : String → String → String)
    (secret timestamp sigHeader rawBody : String)
    (rows : List (List String)) (ev : ZoomEventRaw) : List (List String) × Nat :=
  if sigHeader = "" then (rows, 401)
  else if sigHeader = hmac secret (timestamp ++ rawBody) then
    match ev with
    | .meetingStarted mid topic host s => (rows ++ [[mid, topic, host, s, ""]], 200)
    | .meetingEnded mid _ e => (updateCSVPart0 rows mid e, 200)
    | .otherEvent _ => (rows, 200)
  else (rows, 401)

set_option maxHeartbeats 4000000 in
/-- C3 (amended): the index.js occurrence computation compares truncated
whole-day differences with ±6, a condition that can never hold for a
placement inside the start's own week, so its ±7-day adjustment never fires
and the result is always the nominal week placement; the part_003 variant
shifts the placement by exactly 7 days toward the start instant when it is
more than 3 days (not 6) away from it in either direction. -/
theorem scheduledDateTime_characterization (start : Int) (wd : WeekDay) (hh mm : Int)
    (hh0 : 0 ≤ hh) (hh1 : hh < 24) (hm0 : 0 ≤ mm) (hm1 : mm < 60) :
    getScheduledDateTime start wd hh mm = nominalOccurrence start wd hh mm
    ∧ getScheduledDateTimePart3 start wd hh mm =
        (if nominalOccurrence start wd hh mm - start > 3 * secsPerDay
         then nominalOccurrence start wd hh mm - secsPerWeek
         else if start - nominalOccurrence start wd hh mm > 3 * secsPerDay
         then nominalOccurrence start wd hh mm + secsPerWeek
         else nominalOccurrence start wd hh mm) := by
  have hwd0 : 0 ≤ weekDayNumber wd := by cases wd <;> simp [weekDayNumber]
  have hwd6 : weekDayNumber wd ≤ 6 := by cases wd <;> simp [weekDayNumber]
  simp only [getScheduledDateTime, getScheduledDateTimePart3, nominalOccurrence, weekStartOf,
    momentDiffDays, tdivZ, secsPerDay, secsPerWeek] at hwd6 ⊢
  split_ifs <;> omega

/-- Witness for `scheduledDateTime_characterization` at a concrete input. -/
theorem scheduledDateTime_characterization_witness :
    getScheduledDateTime 12345 WeekDay.wednesday 9 30
        = nominalOccurrence 12345 WeekDay.wednesday 9 30
    ∧ getScheduledDateTimePart3 12345 WeekDay.wednesday 9 30 =
        (if nominalOccurrence 12345 WeekDay.wednesday 9 30 - 12345 > 3 * secsPerDay
         then nominalOccurrence 12345 WeekDay.wednesday 9 30 - secsPerWeek
         else if 12345 - nominalOccurrence 12345 WeekDay.wednesday 9 30 > 3 * secsPerDay
         then nominalOccurrence 12345 WeekDay.wednesday 9 30 + secsPerWeek
         else nominalOccurrence 12345 WeekDay.wednesday 9 30) :=
  scheduledDateTime_characterization 12345 WeekDay.wednesday 9 30
    (by decide) (by decide) (by decide) (by decide)

/-- C3 (counterexample): at start = Sunday 00:00 of the reference week with a
Friday 10:00 course, the placement is 5 days 10 hours away, so the claim's
6-day rule keeps it, yet part_003 shifts it back a week; and at start =
Sunday 00:01:40 with a Saturday 23:00 course, the placement is more than
6 days away, so the claim's rule shifts it, yet index.js does not. -/
theorem scheduledDateTime_spec_mismatch :
    getScheduledDateTimePart3 0 WeekDay.friday 10 0 = -136800
    ∧ getScheduledDateTimeSpec 0 WeekDay.friday 10 0 = 468000
    ∧ getScheduledDateTime 100 WeekDay.saturday 23 0 = 601200
    ∧ getScheduledDateTimeSpec 100 WeekDay.saturday 23 0 = -3600 := by decide

set_option maxHeartbeats 8000000 in
/-- C8: shifting the start instant by exactly 7 days, in either direction,
shifts both variants' scheduled occurrence by exactly 7 days. -/
theorem scheduledDateTime_week_shift (start : Int) (wd : WeekDay) (hh mm : Int) :
    getScheduledDateTime (start + secsPerWeek) wd hh mm
        = getScheduledDateTime start wd hh mm + secsPerWeek
    ∧ getScheduledDateTime (start - secsPerWeek) wd hh mm
        = getScheduledDateTime start wd hh mm - secsPerWeek
    ∧ getScheduledDateTimePart3 (start + secsPerWeek) wd hh mm
        = getScheduledDateTimePart3 start wd hh mm + secsPerWeek
    ∧ getScheduledDateTimePart3 (start - secsPerWeek) wd hh mm
        = getScheduledDateTimePart3 start wd hh mm - secsPerWeek := by
  refine ⟨?_, ?_, ?_, ?_⟩ <;>
    simp only [getScheduledDateTime, getScheduledDateTimePart3, nominalOccurrence, weekStartOf,
      momentDiffDays, tdivZ, secsPerDay, secsPerWeek] <;>
    split_ifs <;> omega

/-- C4 (amended): all variants compute the duration from the difference of
the two instants alone, so it is invariant under a common shift (in
particular a UTC offset change cannot alter it); part_002's
`calculateTotalTime` rounds to the nearest whole minute as claimed, while
the index.js / part_003 `diff('minutes')` truncates toward zero, staying
within one minute of the exact duration. -/
theorem totalTime_characterization (s e δ : Int) :
    momentDiffMinutes (e + δ) (s + δ) = momentDiffMinutes e s
    ∧ calculateTotalTime (s + δ) (e + δ) = calculateTotalTime s e
    ∧ calculateTotalTime s e = roundedMinutes s e
    ∧ 60 * (momentDiffMinutes e s).natAbs ≤ (e - s).natAbs
    ∧ (e - s).natAbs < 60 * ((momentDiffMinutes e s).natAbs + 1) := by
  simp only [momentDiffMinutes, calculateTotalTime, roundedMinutes, tdivZ]
  split_ifs <;> omega

/-- Looking up a key just removed from the tracker yields nothing. -/
theorem lookup_removeMeeting (l : List (String × Session)) (id : String) :
    List.lookup id (removeMeeting l id) = none := by
  induction l with
  | nil => rfl
  | cons p rest ih =>
      simp only [removeMeeting, List.filter_cons] at ih ⊢
      split_ifs with h
      · have hne : (id == p.1) = false :=
          beq_eq_false_iff_ne.mpr (fun e => (bne_iff_ne.mp h) e.symm)
        simp only [List.lookup, hne]
        exact ih
      · exact ih

/-- C1: both evaluators set `approved_payment = min(calculated_payment,
rate_pound)`, hence it never exceeds the course rate; the part_002 backfill
payment `Math.min(rate, rate/40 * total)` is likewise bounded by the rate. -/
theorem approvedPayment_min_le_rate (c : Course) (mid : String) (s e : Int) :
    (evaluate c mid s e).approved_payment
        = min (evaluate c mid s e).calculated_payment c.rate_pound
    ∧ (evaluate c mid s e).approved_payment ≤ c.rate_pound
    ∧ (evaluatePart3 c mid s e).approved_payment ≤ c.rate_pound
    ∧ ∀ rate total : ℚ, min rate (rate / 40 * total) ≤ rate :=
  ⟨rfl, min_le_right _ _, min_le_right _ _, fun rate _ => min_le_left rate _⟩

/-- C2 (amended): the index.js evaluator marks a session `Attended` exactly
when its start is strictly before the grace deadline (occurrence minus 3
minutes), treating a start equal to the deadline as `Not attended`; the
part_003 evaluator uses the claim's inclusive comparison, marking `Attended`
exactly when the start is at or before its deadline. -/
theorem status_boundary_conventions (c : Course) (mid : String) (s e : Int) :
    (evaluate c mid s e).status
      = (if s < getScheduledDateTime s c.scheduled_week_day c.schedHour c.schedMinute - 180
         then "Attended" else "Not attended")
    ∧ (evaluatePart3 c mid s e).status
      = (if s ≤ getScheduledDateTimePart3 s c.scheduled_week_day c.schedHour c.schedMinute - 180
         then "Attended" else "Not attended") := by
  constructor
  · simp only [evaluate]
    split_ifs <;> first | rfl | (exfalso; omega)
  · simp only [evaluatePart3]

/-- C2 (counterexample): a start instant exactly at the grace deadline is
within the claim's `start ≤ deadline` Attended region, yet the index.js
evaluator records `Not attended` for it. -/
theorem status_boundary_counterexample :
    (0 : Int) ≤ getScheduledDateTime 0 boundaryCourse.scheduled_week_day
        boundaryCourse.schedHour boundaryCourse.schedMinute - 180
    ∧ (evaluate boundaryCourse "m" 0 2400).status = "Not attended" := by
  exact ⟨by decide, rfl⟩

/-- C4 (counterexample): a session of 40 minutes 45 seconds is recorded by
the index.js evaluator with `total_time = 40`, not the nearest minute 41. -/
theorem totalTime_truncation_counterexample :
    (evaluate sampleCourse "m" 0 2445).total_time = 40
    ∧ roundedMinutes 0 2445 = 41 := ⟨rfl, by decide⟩

/-- C5 (amended): when an open session exists for the ended meeting, the
first index.js service removes it only if some course matches its topic — on
a course miss it returns early leaving the tracker (and all state)
unchanged — while the part_003 service removes the session unconditionally. -/
theorem tracker_removal_characterization (courses : List Course) (st : ServerState)
    (mid : String) (e : Int) (sess : Session)
    (hlook : List.lookup mid st.ongoingMeetings = some sess) :
    (findCourse courses sess.topic = none →
        processEndedIndexJs courses st mid e = (st, 200))
    ∧ (∀ c, findCourse courses sess.topic = some c →
        List.lookup mid (processEndedIndexJs courses st mid e).1.ongoingMeetings = none)
    ∧ List.lookup mid (processEndedPart3 courses st mid e).1.ongoingMeetings = none := by
  refine ⟨fun hn => ?_, fun c hc => ?_, ?_⟩
  · simp [processEndedIndexJs, hlook, hn]
  · simp [processEndedIndexJs, hlook, hc, lookup_removeMeeting]
  · cases hc : findCourse courses sess.topic <;>
      simp [processEndedPart3, hlook, hc, lookup_removeMeeting]

/-- Witness for `tracker_removal_characterization` at concrete states. -/
theorem tracker_removal_witness :
    processEndedIndexJs [] ⟨[("1", ⟨"X", 0⟩)], []⟩ "1" 600 = (⟨[("1", ⟨"X", 0⟩)], []⟩, 200)
    ∧ List.lookup "1" (processEndedIndexJs [⟨"X", "T", WeekDay.monday, 9, 0, 40⟩]
        ⟨[("1", ⟨"X", 0⟩)], []⟩ "1" 600).1.ongoingMeetings = none
    ∧ List.lookup "1" (processEndedPart3 []
        ⟨[("1", ⟨"X", 0⟩)], []⟩ "1" 600).1.ongoingMeetings = none :=
  ⟨(tracker_removal_characterization [] ⟨[("1", ⟨"X", 0⟩)], []⟩ "1" 600 ⟨"X", 0⟩ rfl).1 rfl,
   (tracker_removal_characterization [⟨"X", "T", WeekDay.monday, 9, 0, 40⟩]
      ⟨[("1", ⟨"X", 0⟩)], []⟩ "1" 600 ⟨"X", 0⟩ rfl).2.1 _ rfl,
   (tracker_removal_characterization [] ⟨[("1", ⟨"X", 0⟩)], []⟩ "1" 600 ⟨"X", 0⟩ rfl).2.2⟩

/-- C5 (counterexample): an ended-event whose session topic matches no
course leaves the session in the first index.js service's tracker, so
removal is not unconditional. -/
theorem tracker_retained_on_no_match :
    (processEndedIndexJs [] ⟨[("1", ⟨"X", 0⟩)], []⟩ "1" 600).1.ongoingMeetings
      = [("1", ⟨"X", 0⟩)] := rfl

/-- C6: an ended-event for a meeting with no open session leaves the state
untouched (no record, tracker unchanged) and still answers HTTP 200, in both
tracker-based services. -/
theorem ended_without_session_noop (courses : List Course) (st : ServerState)
    (mid : String) (e : Int) (h : List.lookup mid st.ongoingMeetings = none) :
    processEndedIndexJs courses st mid e = (st, 200)
    ∧ processEndedPart3 courses st mid e = (st, 200) := by
  constructor <;> simp [processEndedIndexJs, processEndedPart3, h]

/-- Witness for `ended_without_session_noop` on the empty tracker. -/
theorem ended_without_session_noop_witness :
    processEndedIndexJs [] ⟨[], []⟩ "1" 0 = (⟨[], []⟩, 200)
    ∧ processEndedPart3 [] ⟨[], []⟩ "1" 0 = (⟨[], []⟩, 200) :=
  ended_without_session_noop [] ⟨[], []⟩ "1" 0 rfl

/-- C9 (amended): an ended-event at least one whole minute before its start,
matched to a course with a positive rate, is still evaluated and its record
appended: `total_time` is negative and `approved_payment` equals the
negative `calculated_payment` — nothing rejects the event or clamps the
payment at zero. -/
theorem negative_duration_record (courses : List Course) (st : ServerState) (c : Course)
    (sess : Session) (mid : String) (endTime : Int)
    (hlook : List.lookup mid st.ongoingMeetings = some sess)
    (hfind : findCourse courses sess.topic = some c)
    (hend : endTime ≤ sess.startTime - 60)
    (hrate : 0 < c.rate_pound) :
    (processEndedIndexJs courses st mid endTime).1.records
        = st.records ++ [evaluate c mid sess.startTime endTime]
    ∧ (processEndedIndexJs courses st mid endTime).2 = 200
    ∧ (evaluate c mid sess.startTime endTime).total_time < 0
    ∧ (evaluate c mid sess.startTime endTime).approved_payment
        = (evaluate c mid sess.startTime endTime).calculated_payment
    ∧ (evaluate c mid sess.startTime endTime).calculated_payment < 0 := by
  have htt : momentDiffMinutes endTime sess.startTime < 0 := by
    simp only [momentDiffMinutes, tdivZ]
    split_ifs <;> omega
  have hcalc : (evaluate c mid sess.startTime endTime).calculated_payment < 0 := by
    show c.rate_pound / 40 * ((momentDiffMinutes endTime sess.startTime : Int) : ℚ) < 0
    refine mul_neg_of_pos_of_neg (div_pos hrate (by norm_num)) ?_
    exact_mod_cast htt
  refine ⟨?_, ?_, htt, ?_, hcalc⟩
  · simp [processEndedIndexJs, hlook, hfind]
  · simp [processEndedIndexJs, hlook, hfind]
  · show min (evaluate c mid sess.startTime endTime).calculated_payment c.rate_pound
        = (evaluate c mid sess.startTime endTime).calculated_payment
    exact min_eq_left (le_of_lt (hcalc.trans hrate))

/-- Witness for `negative_duration_record`: a session started at the
reference instant and ended one minute earlier. -/
theorem negative_duration_record_witness :
    (processEndedIndexJs [sampleCourse] ⟨[("1", ⟨"Algebra 1", 0⟩)], []⟩ "1" (-60)).1.records
        = [] ++ [evaluate sampleCourse "1" 0 (-60)]
    ∧ (processEndedIndexJs [sampleCourse] ⟨[("1", ⟨"Algebra 1", 0⟩)], []⟩ "1" (-60)).2 = 200
    ∧ (evaluate sampleCourse "1" 0 (-60)).total_time < 0
    ∧ (evaluate sampleCourse "1" 0 (-60)).approved_payment
        = (evaluate sampleCourse "1" 0 (-60)).calculated_payment
    ∧ (evaluate sampleCourse "1" 0 (-60)).calculated_payment < 0 :=
  negative_duration_record [sampleCourse] ⟨[("1", ⟨"Algebra 1", 0⟩)], []⟩ sampleCourse
    ⟨"Algebra 1", 0⟩ "1" (-60) rfl rfl (by decide) (by decide)

/-- C9 (counterexample): an end instant 30 seconds before the start is
earlier than the start, yet the recorded `total_time` is `0`, not negative
(moment's truncation toward zero erases sub-minute deficits). -/
theorem subminute_negative_duration_counterexample :
    (-30 : Int) < 0 ∧ (evaluate sampleCourse "m" 0 (-30)).total_time = 0 :=
  ⟨by decide, rfl⟩

/-- Reading the index just assigned. -/
theorem jsGet_jsSet_self : ∀ (i : Nat) (l : List String) (v : String),
    jsGet (jsSet l i v) i = some v := by
  intro i
  induction i with
  | zero => intro l v; cases l <;> rfl
  | succ n ih =>
      intro l v
      cases l with
      | nil => simpa [jsSet, jsGet] using ih [] v
      | cons x xs => simpa [jsSet, jsGet] using ih xs v

/-- An assignment elsewhere preserves an index that exists. -/
theorem jsGet_jsSet_of_some : ∀ (i : Nat) (l : List String) (j : Nat) (v w : String),
    j ≠ i → jsGet l j = some w → jsGet (jsSet l i v) j = some w := by
  intro i
  induction i with
  | zero =>
      intro l j v w hne hj
      cases l with
      | nil => simp [jsGet] at hj
      | cons x xs =>
          cases j with
          | zero => exact absurd rfl hne
          | succ k => simpa [jsSet, jsGet] using hj
  | succ n ih =>
      intro l j v w hne hj
      cases l with
      | nil => simp [jsGet] at hj
      | cons x xs =>
          cases j with
          | zero => simpa [jsSet, jsGet] using hj
          | succ k =>
              have hk : k ≠ n := fun e => hne (by rw [e])
              simpa [jsSet, jsGet] using ih xs k v w hk (by simpa [jsGet] using hj)

/-- Assigning a value an index already holds is the identity. -/
theorem jsSet_of_jsGet_eq : ∀ (i : Nat) (l : List String) (v : String),
    jsGet l i = some v → jsSet l i v = l := by
  intro i
  induction i with
  | zero =>
      intro l v h
      cases l with
      | nil => simp [jsGet] at h
      | cons x xs =>
          have hx : x = v := by simpa [jsGet] using h
          simp [jsSet, hx]
  | succ n ih =>
      intro l v h
      cases l with
      | nil => simp [jsGet] at h
      | cons x xs =>
          simp only [jsSet]
          rw [ih xs v (by simpa [jsGet] using h)]

/-- Indices below an existing index also exist. -/
theorem jsGet_some_of_le {l : List String} {j : Nat} {w : String} (hj : jsGet l j = some w)
    (k : Nat) (hk : k ≤ j) : ∃ u, jsGet l k = some u := by
  have hlen : j < l.length := by
    by_contra hcon
    simp only [jsGet] at hj
    rw [List.get?_eq_none.mpr (by omega)] at hj
    exact Option.noConfusion hj
  have hkl : k < l.length := by omega
  exact ⟨l.get ⟨k, hkl⟩, List.get?_eq_get hkl⟩

/-- The backfill leaves fields 0-3 as they were when they exist. -/
theorem jsGet_backfill_lo (ett e5 e6 e7 e8 : String) (fields : List String) (k : Nat)
    (hk : k < 4) (w : String) (hw : jsGet fields k = some w) :
    jsGet (backfillFields ett e5 e6 e7 e8 fields) k = some w := by
  unfold backfillFields
  apply jsGet_jsSet_of_some 8 _ k _ w (by omega)
  apply jsGet_jsSet_of_some 7 _ k _ w (by omega)
  apply jsGet_jsSet_of_some 6 _ k _ w (by omega)
  apply jsGet_jsSet_of_some 5 _ k _ w (by omega)
  exact jsGet_jsSet_of_some 4 _ k _ w (by omega) hw

/-- After the backfill, fields 4-8 hold the written values. -/
theorem jsGet_backfill_vals (ett e5 e6 e7 e8 : String) (fields : List String) :
    jsGet (backfillFields ett e5 e6 e7 e8 fields) 4 = some ett
    ∧ jsGet (backfillFields ett e5 e6 e7 e8 fields) 5 = some e5
    ∧ jsGet (backfillFields ett e5 e6 e7 e8 fields) 6 = some e6
    ∧ jsGet (backfillFields ett e5 e6 e7 e8 fields) 7 = some e7
    ∧ jsGet (backfillFields ett e5 e6 e7 e8 fields) 8 = some e8 := by
  unfold backfillFields
  refine ⟨?_, ?_, ?_, ?_, ?_⟩
  · apply jsGet_jsSet_of_some 8 _ 4 _ ett (by omega)
    apply jsGet_jsSet_of_some 7 _ 4 _ ett (by omega)
    apply jsGet_jsSet_of_some 6 _ 4 _ ett (by omega)
    apply jsGet_jsSet_of_some 5 _ 4 _ ett (by omega)
    exact jsGet_jsSet_self 4 _ ett
  · apply jsGet_jsSet_of_some 8 _ 5 _ e5 (by omega)
    apply jsGet_jsSet_of_some 7 _ 5 _ e5 (by omega)
    apply jsGet_jsSet_of_some 6 _ 5 _ e5 (by omega)
    exact jsGet_jsSet_self 5 _ e5
  · apply jsGet_jsSet_of_some 8 _ 6 _ e6 (by omega)
    apply jsGet_jsSet_of_some 7 _ 6 _ e6 (by omega)
    exact jsGet_jsSet_self 6 _ e6
  · apply jsGet_jsSet_of_some 8 _ 7 _ e7 (by omega)
    exact jsGet_jsSet_self 7 _ e7
  · exact jsGet_jsSet_self 8 _ e8

/-- Backfilling a row that already holds exactly the written values is the
identity. -/
theorem backfill_fix (ett e5 e6 e7 e8 : String) (fields : List String)
    (h4 : jsGet fields 4 = some ett) (h5 : jsGet fields 5 = some e5)
    (h6 : jsGet fields 6 = some e6) (h7 : jsGet fields 7 = some e7)
    (h8 : jsGet fields 8 = some e8) :
    backfillFields ett e5 e6 e7 e8 fields = fields := by
  unfold backfillFields
  rw [jsSet_of_jsGet_eq 4 _ _ h4, jsSet_of_jsGet_eq 5 _ _ h5, jsSet_of_jsGet_eq 6 _ _ h6,
    jsSet_of_jsGet_eq 7 _ _ h7, jsSet_of_jsGet_eq 8 _ _ h8]

/-- The row backfill is idempotent: a second application either fails its
guard (the end field is now non-empty) or rewrites the identical values. -/
theorem updateRowOnEnd_idem (dateMs : String → Int) (fmtNum fmt2 : ℚ → String)
    (courses2 : List CourseDetails) (mid stt ett : String) (fields : List String) :
    updateRowOnEnd dateMs fmtNum fmt2 courses2 mid stt ett
        (updateRowOnEnd dateMs fmtNum fmt2 courses2 mid stt ett fields)
      = updateRowOnEnd dateMs fmtNum fmt2 courses2 mid stt ett fields := by
  by_cases hc : jsGet fields 0 = some mid ∧ jsGet fields 3 = some stt
      ∧ jsFalsy (jsGet fields 4) = true
  · obtain ⟨h0, h3, h4⟩ := hc
    obtain ⟨w1, hw1⟩ := jsGet_some_of_le h3 1 (by omega)
    have hg : updateRowOnEnd dateMs fmtNum fmt2 courses2 mid stt ett fields
        = backfillFields ett
            (backfillValues dateMs fmtNum fmt2 courses2 stt ett (jsGet fields 1)).1
            (backfillValues dateMs fmtNum fmt2 courses2 stt ett (jsGet fields 1)).2.1
            (backfillValues dateMs fmtNum fmt2 courses2 stt ett (jsGet fields 1)).2.2.1
            (backfillValues dateMs fmtNum fmt2 courses2 stt ett (jsGet fields 1)).2.2.2
            fields := by
      rw [updateRowOnEnd, if_pos ⟨h0, h3, h4⟩]
    rw [hg]
    obtain ⟨hb4, hb5, hb6, hb7, hb8⟩ := jsGet_backfill_vals ett
      (backfillValues dateMs fmtNum fmt2 courses2 stt ett (jsGet fields 1)).1
      (backfillValues dateMs fmtNum fmt2 courses2 stt ett (jsGet fields 1)).2.1
      (backfillValues dateMs fmtNum fmt2 courses2 stt ett (jsGet fields 1)).2.2.1
      (backfillValues dateMs fmtNum fmt2 courses2 stt ett (jsGet fields 1)).2.2.2
      fields
    by_cases he : ett = ""
    · have hcg : jsGet (backfillFields ett
          (backfillValues dateMs fmtNum fmt2 courses2 stt ett (jsGet fields 1)).1
          (backfillValues dateMs fmtNum fmt2 courses2 stt ett (jsGet fields 1)).2.1
          (backfillValues dateMs fmtNum fmt2 courses2 stt ett (jsGet fields 1)).2.2.1
          (backfillValues dateMs fmtNum fmt2 courses2 stt ett (jsGet fields 1)).2.2.2
          fields) 1 = some w1 :=
        jsGet_backfill_lo _ _ _ _ _ _ 1 (by omega) w1 hw1
      rw [updateRowOnEnd, if_pos ⟨jsGet_backfill_lo _ _ _ _ _ _ 0 (by omega) mid h0,
        jsGet_backfill_lo _ _ _ _ _ _ 3 (by omega) stt h3,
        by rw [hb4]; simp [jsFalsy, he]⟩]
      rw [hcg, hw1]
      rw [hw1] at hb4 hb5 hb6 hb7 hb8
      exact backfill_fix _ _ _ _ _ _ hb4 hb5 hb6 hb7 hb8
    · rw [updateRowOnEnd, if_neg]
      intro hcontra
      obtain ⟨_, _, hf4⟩ := hcontra
      rw [hb4] at hf4
      simp [jsFalsy] at hf4
      exact he hf4
  · have hfix : updateRowOnEnd dateMs fmtNum fmt2 courses2 mid stt ett fields = fields := by
      rw [updateRowOnEnd, if_neg hc]
    rw [hfix]
    exact hfix

/-- C10: the end-time backfill touches only rows whose meeting id and start
time match the ended-event and whose end-time field is still empty, and
applying the same ended-event a second time leaves every row of the store
unchanged. -/
theorem updateMeetingDetailsOnEnd_idempotent (dateMs : String → Int)
    (fmtNum fmt2 : ℚ → String) (courses2 : List CourseDetails)
    (mid stt ett : String) (rows : List (List String)) (fields : List String) :
    (¬(jsGet fields 0 = some mid ∧ jsGet fields 3 = some stt
        ∧ jsFalsy (jsGet fields 4) = true) →
      updateRowOnEnd dateMs fmtNum fmt2 courses2 mid stt ett fields = fields)
    ∧ updateMeetingDetailsOnEnd dateMs fmtNum fmt2 courses2
        (updateMeetingDetailsOnEnd dateMs fmtNum fmt2 courses2 rows mid stt ett) mid stt ett
      = updateMeetingDetailsOnEnd dateMs fmtNum fmt2 courses2 rows mid stt ett := by
  constructor
  · intro h
    rw [updateRowOnEnd, if_neg h]
  · induction rows with
    | nil => rfl
    | cons r rs ih =>
        simp only [updateMeetingDetailsOnEnd, List.map_cons] at ih ⊢
        rw [updateRowOnEnd_idem, ih]

/-- Witness for `updateMeetingDetailsOnEnd_idempotent`: a non-matching row
and a one-row store holding an open started-row. -/
theorem updateMeetingDetailsOnEnd_idempotent_witness :
    updateRowOnEnd (fun _ => 0) (fun _ => "0") (fun _ => "0") [] "1" "s" "e" ["2"] = ["2"]
    ∧ updateMeetingDetailsOnEnd (fun _ => 0) (fun _ => "0") (fun _ => "0") []
        (updateMeetingDetailsOnEnd (fun _ => 0) (fun _ => "0") (fun _ => "0") []
          [["1", "t", "h", "s", ""]] "1" "s" "e") "1" "s" "e"
      = updateMeetingDetailsOnEnd (fun _ => 0) (fun _ => "0") (fun _ => "0") []
          [["1", "t", "h", "s", ""]] "1" "s" "e" := by
  have T := updateMeetingDetailsOnEnd_idempotent (fun _ => 0) (fun _ => "0") (fun _ => "0") []
    "1" "s" "e" [["1", "t", "h", "s", ""]] ["2"]
  exact ⟨T.1 (by decide), T.2⟩

/-- C7 (amended): on a signature the service did not expect, every variant
answers without touching its store, but the expected values and status codes
differ: the index.js / part_003 route rejects a header differing from
`"v0=" + HMAC(secret, "v0:" + ts + ":" + body)` with 401 (after answering
`endpoint.url_validation` unverified), part_002 rejects the same mismatch
with 400, and part_000 compares the header against the bare hex digest of
`HMAC(secret, ts + body)` — no `"v0:"` framing, no `"v0="` prefix —
rejecting its own mismatch with 401. -/
theorem signature_gate_characterization (hmac : String → String → String)
    (secret timestamp sigHeader rawBody : String) (courses : List Course)
    (st : ServerState) (ev : ZoomEvent) (dateMs : String → Int)
    (fmtNum fmt2 : ℚ → String) (courses2 : List CourseDetails)
    (rows rows0 : List (List String)) (evr : ZoomEventRaw) :
    (ev.isUrlValidation = false →
        sigHeader ≠ zoomSignature hmac secret timestamp rawBody →
        handleWebhookIndexJs hmac secret timestamp sigHeader rawBody courses st ev
          = (st, 401))
    ∧ (sigHeader ≠ zoomSignature hmac secret timestamp rawBody →
        handleWebhookPart2 hmac secret timestamp sigHeader rawBody dateMs fmtNum fmt2
          courses2 rows evr = (rows, 400))
    ∧ (sigHeader ≠ hmac secret (timestamp ++ rawBody) →
        handleWebhookPart0 hmac secret timestamp sigHeader rawBody rows0 evr
          = (rows0, 401)) := by
  refine ⟨fun hv hs => ?_, fun hs => ?_, fun hs => ?_⟩
  · cases ev with
    | urlValidation t => simp [ZoomEvent.isUrlValidation] at hv
    | meetingStarted a b c =>
        simp only [handleWebhookIndexJs]
        rw [if_pos hs]
    | meetingEnded a b =>
        simp only [handleWebhookIndexJs]
        rw [if_pos hs]
    | otherEvent n =>
        simp only [handleWebhookIndexJs]
        rw [if_pos hs]
  · simp only [handleWebhookPart2]
    rw [if_pos (Ne.symm hs)]
  · simp only [handleWebhookPart0]
    by_cases he : sigHeader = ""
    · rw [if_pos he]
    · rw [if_neg he, if_neg hs]

/-- Witness for `signature_gate_characterization` with a concrete constant
HMAC and a mismatched header. -/
theorem signature_gate_witness :
    handleWebhookIndexJs (fun _ _ => "d") "s" "t" "x" "b" [] ⟨[], []⟩
        (ZoomEvent.meetingEnded "1" 0) = (⟨[], []⟩, 401)
    ∧ handleWebhookPart2 (fun _ _ => "d") "s" "t" "x" "b" (fun _ => 0) (fun _ => "0")
        (fun _ => "0") [] [] (ZoomEventRaw.otherEvent "e") = ([], 400)
    ∧ handleWebhookPart0 (fun _ _ => "d") "s" "t" "x" "b" [] (ZoomEventRaw.otherEvent "e")
        = ([], 401) := by
  have T := signature_gate_characterization (fun _ _ => "d") "s" "t" "x" "b" [] ⟨[], []⟩
    (ZoomEvent.meetingEnded "1" 0) (fun _ => 0) (fun _ => "0") (fun _ => "0") [] [] []
    (ZoomEventRaw.otherEvent "e")
  exact ⟨T.1 rfl (by decide), T.2.1 (by decide), T.2.2 (by decide)⟩

/-- C7 (counterexample): with the header differing from the claimed
`"v0=" + HMAC(...)` signature, part_002 responds 400, not 401. -/
theorem signature_gate_part2_responds_400 :
    (handleWebhookPart2 (fun _ _ => "d") "s" "t" "x" "b" (fun _ => 0) (fun _ => "0")
        (fun _ => "0") [] [] (ZoomEventRaw.meetingEnded "1" "a" "c")).2 = 400
    ∧ "x" ≠ zoomSignature (fun _ _ => "d") "s" "t" "b" := by
  exact ⟨by decide, by decide⟩

end Zoom
